/-
  Verification of the FileDebtIndex cache-coherency core of the
  cs5351-frontend VS Code extension, shallowly embedded in Lean 4.

  Sources embedded:
    src/src/extension/services/fileDebtIndex.ts   (FileDebtIndex)
    src/src/extension/decorators/inlineDebtDecorator.ts (second variant, apply)
    src/src/extension/extension.ts                (DebtCodeLensProviderNew)

  Modelling conventions:
  - JavaScript numbers are integers plus an explicit NaN (`JSNum`); every
    number this code manipulates (line numbers, `Date.now()` timestamps,
    TTL milliseconds, line counts) is integer-valued.  `Number(...)`
    coercion and `Math.max` follow ECMAScript semantics on these shapes;
    non-integer numeric literals are not modelled (no claim uses them).
  - Dynamic JSON values from the backend are the inductive `JsVal`.
  - `Date.now()` timestamps are passed explicitly to each call.
  - The gateway (DebtService over HTTP) is an explicit parameter:
    `Except Unit α` is a gateway call that either succeeds or throws.
  - Node's `path` module is modelled for POSIX paths without `.`/`..`
    segments; `process.platform` is modelled as non-win32.
  - `String.prototype.localeCompare` is modelled as codepoint comparison.
-/
import Mathlib

set_option maxHeartbeats 1000000

/-- JavaScript number: an integer or NaN. -/
inductive JSNum where
  | nan : JSNum
  | val (q : ℤ) : JSNum
deriving DecidableEq, Repr

/-- Dynamic JSON-ish value as it arrives from the backend wire. -/
inductive JsVal where
  | undefined : JsVal
  | null : JsVal
  | num (q : ℤ) : JsVal
  | str (s : String) : JsVal
  | bool (b : Bool) : JsVal
  | arr (l : List JsVal) : JsVal

/-- A value is "present" for `??` (nullish coalescing) iff it is neither
`undefined` nor `null`. -/
def JsVal.present : JsVal → Bool
  | .undefined => false
  | .null => false
  | _ => true

/-- JavaScript `a ?? b`. -/
def jsCoalesce (a b : JsVal) : JsVal :=
  if a.present then a else b

/-- Lower-case one ASCII character (model of `toLowerCase` per char). -/
def charLower (c : Char) : Char :=
  if 'A' ≤ c ∧ c ≤ 'Z' then Char.ofNat (c.toNat + 32) else c

/-- Lower-case a string (model of `String.prototype.toLowerCase`). -/
def lowerStr (s : String) : String :=
  ⟨s.data.map charLower⟩

/-- Whitespace for the trim model. -/
def isWs (c : Char) : Bool :=
  c = ' ' ∨ c = '\t' ∨ c = '\n' ∨ c = '\r'

/-- Model of `String.prototype.trim`. -/
def trimStr (s : String) : String :=
  ⟨((s.data.dropWhile isWs).reverse.dropWhile isWs).reverse⟩

/-- Value of a run of decimal digits; `none` if a non-digit appears. -/
def digitsVal (cs : List Char) : Option ℕ :=
  cs.foldl
    (fun acc c =>
      acc.bind (fun n => if c.isDigit then some (n * 10 + (c.toNat - '0'.toNat)) else none))
    (some 0)

/-- Parse an unsigned decimal integer literal. -/
def parseDec (cs : List Char) : Option ℤ :=
  if cs = [] then none
  else (digitsVal cs).map (fun n => (n : ℤ))

/-- Model of `Number(string)`: trimmed empty string is 0, an optionally
signed decimal integer literal is its value, anything else is NaN.  (Hex,
exponent, fraction and Infinity forms are not modelled; no input here
uses them.) -/
def strToNumber (s : String) : JSNum :=
  let t := (trimStr s).data
  if t = [] then .val 0
  else
    let sb : ℤ × List Char :=
      match t with
      | '-' :: r => (-1, r)
      | '+' :: r => (1, r)
      | _ => (1, t)
    match parseDec sb.2 with
    | some q => .val (sb.1 * q)
    | none => .nan

/-- Model of JavaScript `Number(v)` coercion.  (`Number` of arrays
coerces through their string form; arrays here only ever feed
`coerceStringArray`, so non-empty arrays are coarsely mapped to NaN.) -/
def toNumber : JsVal → JSNum
  | .undefined => .nan
  | .null => .val 0
  | .num q => .val q
  | .str s => strToNumber s
  | .bool b => .val (if b then 1 else 0)
  | .arr l => match l with
    | [] => .val 0
    | _ => .nan

/-- Model of `Math.max` on two JS numbers: NaN-propagating. -/
def jsMaxN : JSNum → JSNum → JSNum
  | .nan, _ => .nan
  | _, .nan => .nan
  | .val a, .val b => .val (max a b)

/-- JS subtraction on numbers: NaN-propagating. -/
def jsSub : JSNum → JSNum → JSNum
  | .val a, .val b => .val (a - b)
  | _, _ => .nan

/-- JS comparison `a >= c` for a JS number against a plain integer:
false whenever `a` is NaN. -/
def jsGeZ (a : JSNum) (c : ℤ) : Bool :=
  match a with
  | .val x => c ≤ x
  | .nan => false

/-- Does `pre` occur as a leading run of the second list? -/
def leadsWith : List Char → List Char → Bool
  | [], _ => true
  | _ :: _, [] => false
  | a :: as, b :: bs => a = b && leadsWith as bs

/-- Does `needle` occur as a contiguous run anywhere in the list? -/
def containsRun (needle : List Char) : List Char → Bool
  | [] => leadsWith needle []
  | c :: rest => leadsWith needle (c :: rest) || containsRun needle rest

/-- Model of `String.prototype.startsWith`. -/
def strBeginsWith (s pre : String) : Bool :=
  leadsWith pre.data s.data

/-- Model of `String.prototype.includes`. -/
def strIncludes (s needle : String) : Bool :=
  containsRun needle.data s.data

/-- Lexicographic codepoint comparison of character lists, with values
in -1, 0, 1. -/
def listCmp : List Char → List Char → ℤ
  | [], [] => 0
  | [], _ :: _ => -1
  | _ :: _, [] => 1
  | a :: as, b :: bs =>
    if a = b then listCmp as bs
    else if a < b then -1 else 1

/-- Model of `String.prototype.localeCompare` (codepoint order). -/
def localeCompare (a b : String) : ℤ :=
  listCmp a.data b.data

/-- Collapse each run of `/` to a single `/` (model of `replace(/\/+/g,'/')`
applied after backslash replacement). -/
def collapseSlashes : List Char → List Char
  | [] => []
  | [c] => [c]
  | a :: b :: rest =>
    if a = '/' ∧ b = '/' then collapseSlashes (b :: rest)
    else a :: collapseSlashes (b :: rest)

/-- FileDebtIndex.normalizePath (fileDebtIndex.ts lines 215-223):
backslashes to slashes, collapse slash runs, strip trailing slashes.
The win32 lower-casing branch is not taken on the modelled platform. -/
def normalizePath (rawPath : String) : String :=
  let s1 := rawPath.data.map (fun c => if c = '\\' then '/' else c)
  let s2 := collapseSlashes s1
  let s3 := (s2.reverse.dropWhile (· = '/')).reverse
  ⟨s3⟩

/-- Split a character list at commas (model of `split(',')`). -/
def splitComma : List Char → List (List Char)
  | [] => [[]]
  | ',' :: rest => [] :: splitComma rest
  | c :: rest =>
    match splitComma rest with
    | g :: gs => (c :: g) :: gs
    | [] => [[c]]

/-- Canonical severities (src/types/debt.ts, enum DebtSeverity). -/
inductive DebtSeverity where
  | low | medium | high | critical
deriving DecidableEq, Repr

/-- The wire string of a DebtSeverity enum member. -/
def sevStr : DebtSeverity → String
  | .low => "low"
  | .medium => "medium"
  | .high => "high"
  | .critical => "critical"

/-- FileDebtIndex.mapSeverity (lines 256-271): exact enum-value match
first, then lower-cased name match, defaulting to low. -/
def mapSeverity (raw : String) : DebtSeverity :=
  if raw = "low" then .low
  else if raw = "medium" then .medium
  else if raw = "high" then .high
  else if raw = "critical" then .critical
  else
    match lowerStr raw with
    | "critical" => .critical
    | "high" => .high
    | "medium" => .medium
    | _ => .low

/-- Nested `location` object inside backend metadata. -/
structure Loc where
  line : JsVal := .undefined

/-- Backend metadata bag (only the fields this code reads). -/
structure Metadata where
  location : Option Loc := none
  line : JsVal := .undefined
  risk_flags : JsVal := .undefined
  riskFlags : JsVal := .undefined
  smell_flags : JsVal := .undefined
  smellFlags : JsVal := .undefined
  estimated_effort : JsVal := .undefined
  debt_score : JsVal := .undefined

/-- A raw debt record as returned by DebtService.getFileDebts. -/
structure DebtRecord where
  id : String := ""
  filePath : Option String := none
  line : JsVal := .undefined
  severity : String := ""
  description : Option String := none
  status : Option String := none
  metadata : Option Metadata := none
  estimatedEffort : JsVal := .undefined

/-- `metadata?.f` access on an optional metadata bag. -/
def mdGet (m? : Option Metadata) (f : Metadata → JsVal) : JsVal :=
  match m? with
  | none => .undefined
  | some m => f m

/-- `metadata?.location?.line` access. -/
def metaLocLine (m? : Option Metadata) : JsVal :=
  match m? with
  | none => .undefined
  | some m =>
    match m.location with
    | none => .undefined
    | some l => l.line

/-- The line-number computation of FileDebtIndex.fetchAndCacheFile
(line 185 of fileDebtIndex.ts):
`Math.max(1, Number(debt.metadata?.location?.line ?? debt.metadata?.line ?? (debt as any).line ?? 1))`. -/
def jsLine (rec : DebtRecord) : JSNum :=
  jsMaxN (.val 1)
    (toNumber
      (jsCoalesce
        (jsCoalesce (jsCoalesce (metaLocLine rec.metadata) (mdGet rec.metadata (·.line)))
          rec.line)
        (.num 1)))

/-- The status computation (line 188):
`String(debt.status || '').toLowerCase() || 'open'`. -/
def mapStatus (st? : Option String) : String :=
  let s := lowerStr (st?.getD "")
  if s = "" then "open" else s

/-- JavaScript truthiness test on a JsVal (`!value`). -/
def jsFalsy : JsVal → Bool
  | .undefined => true
  | .null => true
  | .num q => q = 0
  | .str s => s = ""
  | .bool b => !b
  | .arr _ => false

/-- FileDebtIndex.coerceStringArray (lines 273-284). -/
def coerceStringArray (v : JsVal) : Option (List String) :=
  if jsFalsy v then none
  else
    match v with
    | .arr l => some (l.filterMap (fun x => match x with | .str s => some s | _ => none))
    | .str s =>
      if 0 < (trimStr s).data.length then
        some (((splitComma s.data).map (fun cs => trimStr ⟨cs⟩)).filter (fun t => t ≠ ""))
      else none
    | _ => none

/-- Model of Node `path.isAbsolute` (POSIX). -/
def pathIsAbsolute (p : String) : Bool :=
  strBeginsWith p "/"

/-- Model of Node `path.join` (POSIX, no dot segments). -/
def pathJoin (a b : String) : String :=
  a ++ "/" ++ b

/-- Model of Node `path.normalize`: the identity on POSIX paths without
`.`/`..` segments, which is the only shape produced here. -/
def pathNormalize (p : String) : String :=
  p

/-- FileDebtIndex.resolveAbsolutePath (lines 239-254); `folders` is the
list of workspace-folder fsPaths. -/
def resolveAbsolutePath (folders : List String) (preferred : Option String) (fallback : String) : String :=
  let pick :=
    match preferred with
    | some s => if 0 < (trimStr s).data.length then s else fallback
    | none => fallback
  if pathIsAbsolute pick then pathNormalize pick
  else
    match folders.find? (fun f => strBeginsWith fallback f) with
    | some f => pathNormalize (pathJoin f pick)
    | none =>
      match folders with
      | f :: _ => pathNormalize (pathJoin f pick)
      | [] => pathNormalize fallback

/-- The cached FileDebt entity (fileDebtIndex.ts lines 7-19). -/
structure FileDebt where
  id : String := ""
  filePath : String := ""
  line : JSNum := .val 1
  severity : DebtSeverity := .low
  description : Option String := none
  status : String := "open"
  metadata : Option Metadata := none
  riskFlags : Option (List String) := none
  smellFlags : Option (List String) := none
  estimatedEffort : Option ℤ := none
  debtScore : Option ℤ := none

/-- `Number(metadata?.estimated_effort ?? debt.estimatedEffort) || undefined`
(line 192). -/
def mapEffort (m? : Option Metadata) (ee : JsVal) : Option ℤ :=
  match toNumber (jsCoalesce (mdGet m? (·.estimated_effort)) ee) with
  | .nan => none
  | .val q => if q = 0 then none else some q

/-- `typeof metadata?.debt_score === 'number' ? it : undefined` (line 193). -/
def mapScore (m? : Option Metadata) : Option ℤ :=
  match mdGet m? (·.debt_score) with
  | .num q => some q
  | _ => none

/-- The record-to-FileDebt mapping of fetchAndCacheFile (lines 182-194). -/
def mapDebt (folders : List String) (fallbackPath : String) (rec : DebtRecord) : FileDebt :=
  { id := rec.id
    filePath := resolveAbsolutePath folders rec.filePath fallbackPath
    line := jsLine rec
    severity := mapSeverity rec.severity
    description := rec.description
    status := mapStatus rec.status
    metadata := rec.metadata
    riskFlags := coerceStringArray (jsCoalesce (mdGet rec.metadata (·.risk_flags)) (mdGet rec.metadata (·.riskFlags)))
    smellFlags := coerceStringArray (jsCoalesce (mdGet rec.metadata (·.smell_flags)) (mdGet rec.metadata (·.smellFlags)))
    estimatedEffort := mapEffort rec.metadata rec.estimatedEffort
    debtScore := mapScore rec.metadata }

/-- One cache entry (fileDebtIndex.ts lines 21-25); `fetchedAt` is a
`Date.now()` millisecond timestamp. -/
structure CacheEntry where
  debts : List FileDebt
  fetchedAt : ℤ
  filePath : String

/-- Association-list model of a JS `Map` keyed by strings: lookup. -/
def mapGet {α : Type} : List (String × α) → String → Option α
  | [], _ => none
  | (k', v) :: rest, k => if k' = k then some v else mapGet rest k

/-- `Map.set`: overwrite in place, else append at the end. -/
def mapSet {α : Type} : List (String × α) → String → α → List (String × α)
  | [], k, v => [(k, v)]
  | (k', v') :: rest, k, v =>
    if k' = k then (k, v) :: rest else (k', v') :: mapSet rest k v

/-- `Map.delete`. -/
def mapDelete {α : Type} (m : List (String × α)) (k : String) : List (String × α) :=
  m.filter (fun kv => kv.1 ≠ k)

/-- The mutable state of the FileDebtIndex singleton, together with
observation counters for gateway calls and change events.  `folders` is
the ambient `vscode.workspace.workspaceFolders` fsPath list (read-only
here). -/
structure IndexState where
  cache : List (String × CacheEntry) := []
  ttlMs : ℤ := 120 * 1000
  projectId : Option String := none
  folders : List String := []
  events : ℕ := 0
  fetchCount : ℕ := 0
  createCount : ℕ := 0

/-- The slice of a `vscode.TextDocument` the index reads. -/
structure Document where
  scheme : String
  fsPath : String
  uriString : String
  lineCount : ℤ

/-- FileDebtIndex.isVirtualDocument (lines 225-237). -/
def isVirtualDocument (doc : Document) : Bool :=
  let raw := lowerStr doc.uriString
  if raw = "" then false
  else if strIncludes raw "extension-output-" then true
  else if strBeginsWith raw "vscode-remote://" || strBeginsWith raw "vscode-userdata://" then true
  else false

/-- Outcome of one project-resolution attempt (the async body of
ensureProject, lines 61-90): the workspace folder may be missing, the
path lookup may hit, the create may succeed, or either gateway call may
throw. -/
inductive Attempt where
  | noFolder
  | found (p : String)
  | createOk (p : String)
  | lookupError
  | createError
deriving DecidableEq

/-- The project id an attempt resolves to (null on failure paths). -/
def Attempt.result : Attempt → Option String
  | .found p => some p
  | .createOk p => some p
  | _ => none

/-- How many createProject gateway calls the attempt performs. -/
def Attempt.creates : Attempt → ℕ
  | .createOk _ => 1
  | .createError => 1
  | _ => 0

/-- FileDebtIndex.ensureProject (lines 53-93) run to completion with no
interleaved callers: the memoized id short-circuits; otherwise the
attempt runs, memoizing the id exactly when it succeeds.  (Concurrent
callers are treated by the `ep` trace model below.) -/
def ensureProjectRun (st : IndexState) (att : Attempt) : IndexState × Option String :=
  match st.projectId with
  | some p => (st, some p)
  | none =>
    ({ st with
        projectId := att.result
        createCount := st.createCount + att.creates }, att.result)

/-- FileDebtIndex.fetchAndCacheFile (lines 178-209).  `gw` is the
`debtService.getFileDebts` gateway call; `now` is `Date.now()` at the
cache write.  On success the mapped list is cached and returned; on a
thrown gateway error the entry is deleted and `[]` returned; the change
event fires and the fetch counts in both cases. -/
def fetchAndCacheFile (st : IndexState) (_pid : String) (filePath : String)
    (cacheKey : Option String) (now : ℤ) (gw : Except Unit (List DebtRecord)) :
    IndexState × List FileDebt :=
  let key := cacheKey.getD (normalizePath filePath)
  match gw with
  | .ok recs =>
    let mapped := recs.map (mapDebt st.folders filePath)
    ({ st with
        cache := mapSet st.cache key ⟨mapped, now, filePath⟩
        events := st.events + 1
        fetchCount := st.fetchCount + 1 }, mapped)
  | .error _ =>
    ({ st with
        cache := mapDelete st.cache key
        events := st.events + 1
        fetchCount := st.fetchCount + 1 }, [])

/-- FileDebtIndex.scanFile (lines 95-120).  `att` feeds ensureProject if
the project is not yet memoized; `gw` is the file-debts gateway call,
consulted only when the fetch actually happens. -/
def scanFile (st : IndexState) (doc : Document) (forceRefresh : Bool) (att : Attempt)
    (now : ℤ) (gw : Except Unit (List DebtRecord)) : IndexState × List FileDebt :=
  if doc.scheme ≠ "file" then (st, [])
  else if isVirtualDocument doc then (st, [])
  else
    match ensureProjectRun st att with
    | (st1, none) => (st1, [])
    | (st1, some pid) =>
      let filePath := doc.fsPath
      let cacheKey := normalizePath filePath
      match mapGet st1.cache cacheKey with
      | some cached =>
        if ¬forceRefresh ∧ now - cached.fetchedAt < st1.ttlMs then (st1, cached.debts)
        else fetchAndCacheFile st1 pid filePath (some cacheKey) now gw
      | none => fetchAndCacheFile st1 pid filePath (some cacheKey) now gw

/-- FileDebtIndex.getCachedFileDebts (lines 122-126): pure cache read. -/
def getCachedFileDebts (st : IndexState) (doc : Document) : List FileDebt :=
  match mapGet st.cache (normalizePath doc.fsPath) with
  | some cached => cached.debts
  | none => []

/-- FileDebtIndex.getCachedDebtsByPath (lines 128-132). -/
def getCachedDebtsByPath (st : IndexState) (filePath : String) : List FileDebt :=
  match mapGet st.cache (normalizePath filePath) with
  | some cached => cached.debts
  | none => []

/-- FileDebtIndex.updateDebtStatus (lines 134-145).  `gw` is the
`debtService.updateDebtStatus` gateway call; the `_status` argument is
only forwarded to it.  Success deletes that debt's cache entry and fires
the change event, returning true; a thrown gateway error leaves the
state untouched and returns false. -/
def updateDebtStatus (st : IndexState) (debt : FileDebt) (_status : String)
    (gw : Except Unit Unit) : IndexState × Bool :=
  match gw with
  | .ok _ =>
    ({ st with
        cache := mapDelete st.cache (normalizePath debt.filePath)
        events := st.events + 1 }, true)
  | .error _ => (st, false)

/-- FileDebtIndex.setTTL (lines 49-51). -/
def setTTL (st : IndexState) (seconds : ℤ) : IndexState :=
  { st with ttlMs := max 10 seconds * 1000 }

/-- FileDebtIndex.clearAll (lines 158-161). -/
def clearAll (st : IndexState) : IndexState :=
  { st with cache := [], events := st.events + 1 }

/-- The sort comparator of aggregateWorkspaceDebts (lines 152-155):
`localeCompare` on paths, then `left.line - right.line`.  A NaN
comparator value is treated as 0 by `Array.prototype.sort`, which the
line branch bakes in. -/
def debtCmp (l r : FileDebt) : ℤ :=
  if localeCompare l.filePath r.filePath ≠ 0 then localeCompare l.filePath r.filePath
  else
    match l.line, r.line with
    | .val x, .val y => x - y
    | _, _ => 0

/-- Non-strict "sorts before" relation induced by `debtCmp`. -/
def debtLE (a b : FileDebt) : Prop :=
  debtCmp a b ≤ 0

instance : DecidableRel debtLE :=
  fun a b => inferInstanceAs (Decidable (debtCmp a b ≤ 0))

/-- FileDebtIndex.aggregateWorkspaceDebts (lines 147-156): concatenate
every cached entry's debts and sort with `debtCmp`.  `Array.prototype.sort`
is modelled by insertion sort over the induced relation. -/
def aggregateWorkspaceDebts (st : IndexState) : List FileDebt :=
  List.insertionSort debtLE ((st.cache.map (fun kv => kv.2.debts)).flatten)

/-- The decoration key of a debt (inlineDebtDecorator.ts line 116):
`String(d.severity || 'low').toLowerCase()`; severities are non-empty
lower-case enum strings, so this is their wire string lower-cased. -/
def severityKey (sev : DebtSeverity) : String :=
  lowerStr (sevStr sev)

/-- The per-severity range buckets built by InlineDebtDecorator.apply;
each bucket records the 0-based start lines pushed, in order. -/
structure DecorationGroups where
  low : List JSNum := []
  medium : List JSNum := []
  high : List JSNum := []
  critical : List JSNum := []

/-- `groups[severityKey]?.push(...)` (line 145): append to the matching
bucket, silently dropping unknown keys. -/
def pushGroup (g : DecorationGroups) (key : String) (line : JSNum) : DecorationGroups :=
  if key = "low" then { g with low := g.low ++ [line] }
  else if key = "medium" then { g with medium := g.medium ++ [line] }
  else if key = "high" then { g with high := g.high ++ [line] }
  else if key = "critical" then { g with critical := g.critical ++ [line] }
  else g

/-- The loop body of InlineDebtDecorator.apply (lines 113-146):
`line = Math.max(0, d.line - 1)`, skip when `line >= lineCount`,
otherwise push a range at `line` into the severity bucket.  (Hover
message construction carries no information the claims touch.) -/
def applyStep (lineCount : ℤ) (g : DecorationGroups) (d : FileDebt) : DecorationGroups :=
  let line := jsMaxN (.val 0) (jsSub d.line (.val 1))
  if jsGeZ line lineCount then g
  else pushGroup g (severityKey d.severity) line

/-- InlineDebtDecorator.apply (second variant, lines 110-150) restricted
to its observable output: the per-severity decoration ranges. -/
def applyDecorations (lineCount : ℤ) (debts : List FileDebt) : DecorationGroups :=
  debts.foldl (applyStep lineCount) {}

/-- All 0-based lines decorated, over the four buckets. -/
def groupLines (g : DecorationGroups) : List JSNum :=
  g.low ++ g.medium ++ g.high ++ g.critical

/-- One code lens: its 0-based line and the bound command. -/
structure CodeLensItem where
  line : JSNum
  command : String
deriving DecidableEq

/-- The row-lens loop body of DebtCodeLensProviderNew.provideCodeLenses:
`line = Math.max(0, d.line - 1)`, skip when `line >= document.lineCount`,
otherwise three action lenses at that line. -/
def rowLensStep (lineCount : ℤ) (acc : List CodeLensItem) (d : FileDebt) : List CodeLensItem :=
  let line := jsMaxN (.val 0) (jsSub d.line (.val 1))
  if jsGeZ line lineCount then acc
  else
    acc ++ [⟨line, "technicalDebt.markDebt.inProgress"⟩,
            ⟨line, "technicalDebt.markDebt.resolved"⟩,
            ⟨line, "technicalDebt.markDebt.ignored"⟩]

/-- DebtCodeLensProviderNew.provideCodeLenses (extension.ts): a summary
lens at line 0 (scan call-to-action when the cache is empty), then the
row lenses for the document's cached debts. -/
def provideCodeLenses (st : IndexState) (doc : Document) : List CodeLensItem :=
  let debts := getCachedFileDebts st doc
  let head :=
    if 0 < debts.length then [⟨.val 0, "technicalDebt.showFileDebts"⟩]
    else [(⟨.val 0, "technicalDebt.scanFile"⟩ : CodeLensItem)]
  head ++ debts.foldl (rowLensStep doc.lineCount) []

/-- State of the `ensuringProject` field: null, holding a still-pending
promise, or holding an already-settled promise together with its
resolution value. -/
inductive EnsuringSlot where
  | empty
  | pending
  | settled (res : Option String)
deriving DecidableEq

/-- Interleaving model of ensureProject (fileDebtIndex.ts lines 53-93).
State of the memo (`workspaceProjectId`), the `ensuringProject` field,
the callers awaiting a pending promise, and observation counters. -/
structure EPState where
  projectId : Option String := none
  slot : EnsuringSlot := .empty
  waiters : List ℕ := []
  attemptsStarted : ℕ := 0
  creates : ℕ := 0
  delivered : List (ℕ × Option String) := []
deriving DecidableEq

/-- Events of the single-threaded event loop: a caller invokes
ensureProject (`att` fixes the behavior of the resolution body in case
this call is the one that starts it), or the pending body settles. -/
inductive EPEvent where
  | call (cid : ℕ) (att : Attempt)
  | settle (att : Attempt)

/-- One event-loop step.  A call returns the memoized id at once (line
54) or the stored promise (line 57) - which delivers immediately when
that promise is already settled.  Otherwise it starts the resolution
body (line 61).  A no-folder body has no await before its `return null`,
so it completes synchronously: its `finally` (line 88) nulls the field
BEFORE the line-61 assignment stores the promise, leaving the settled
null promise stored.  Every other body suspends at its first gateway
await (line 70), so a pending promise is stored; when that body settles,
its result is delivered to every waiter, the id is memoized exactly on
success (lines 72/81), its createProject call is counted, and the
`finally` clears the field (this time after the assignment). -/
def epStep (st : EPState) (e : EPEvent) : EPState :=
  match e with
  | .call cid att =>
    match st.projectId with
    | some p => { st with delivered := (cid, some p) :: st.delivered }
    | none =>
      match st.slot with
      | .pending => { st with waiters := cid :: st.waiters }
      | .settled res => { st with delivered := (cid, res) :: st.delivered }
      | .empty =>
        match att with
        | .noFolder =>
          { st with
              slot := .settled none
              attemptsStarted := st.attemptsStarted + 1
              delivered := (cid, none) :: st.delivered }
        | _ =>
          { st with
              slot := .pending
              waiters := [cid]
              attemptsStarted := st.attemptsStarted + 1 }
  | .settle att =>
    match st.slot with
    | .pending =>
      { st with
          projectId := match att.result with | some p => some p | none => st.projectId
          slot := .empty
          waiters := []
          creates := st.creates + att.creates
          delivered := st.waiters.map (fun c => (c, att.result)) ++ st.delivered }
    | _ => st

/-- Run a trace of event-loop events from a state. -/
def epRun (st : EPState) (es : List EPEvent) : EPState :=
  es.foldl epStep st

/-- The fresh extension state: nothing memoized, nothing stored. -/
def epInit : EPState := {}

lemma mapGet_mapSet_self {α : Type} (m : List (String × α)) (k : String) (v : α) :
    mapGet (mapSet m k v) k = some v := by
  induction m with
  | nil => simp [mapSet, mapGet]
  | cons kv rest ih =>
    by_cases h : kv.1 = k
    · simp [mapSet, mapGet, h]
    · cases kv with
      | mk k' v' =>
        simp only at h
        simp [mapSet, mapGet, h, ih]

lemma mapGet_mapDelete_self {α : Type} (m : List (String × α)) (k : String) :
    mapGet (mapDelete m k) k = none := by
  induction m with
  | nil => simp [mapDelete, mapGet]
  | cons kv rest ih =>
    by_cases h : kv.1 = k
    · simpa [mapDelete, h] using ih
    · simpa [mapDelete, mapGet, h] using ih

/-- C9: For every argument s, setTTL(s) sets the cache TTL to
max(10, s) seconds (stored as max(10, s) * 1000 milliseconds), so the
effective TTL can never be configured below 10 seconds. -/
theorem c9_setTTL_clamped (st : IndexState) (s : ℤ) :
    (setTTL st s).ttlMs = max 10 s * 1000 ∧ 10 * 1000 ≤ (setTTL st s).ttlMs := by
  refine ⟨rfl, ?_⟩
  show (10 : ℤ) * 1000 ≤ max 10 s * 1000
  have h : (10 : ℤ) ≤ max 10 s := le_max_left 10 s
  nlinarith

/-- C3: updateDebtStatus returns true exactly when the gateway update
succeeds; on success it deletes the cache entry for the debt's
normalized file path and fires the change event; on gateway failure it
returns false and leaves the whole state (cache and event count)
unchanged. -/
theorem c3_updateDebtStatus (st : IndexState) (debt : FileDebt) (status : String) :
    (updateDebtStatus st debt status (.ok ())).2 = true ∧
    (updateDebtStatus st debt status (.ok ())).1.cache
      = mapDelete st.cache (normalizePath debt.filePath) ∧
    mapGet (updateDebtStatus st debt status (.ok ())).1.cache (normalizePath debt.filePath)
      = none ∧
    (updateDebtStatus st debt status (.ok ())).1.events = st.events + 1 ∧
    (updateDebtStatus st debt status (.error ())).2 = false ∧
    (updateDebtStatus st debt status (.error ())).1 = st := by
  refine ⟨rfl, rfl, ?_, rfl, rfl, rfl⟩
  exact mapGet_mapDelete_self st.cache (normalizePath debt.filePath)

/-- C2: If the gateway fetch for a file key throws, afterwards the cache
has no entry for that key, the change event still fires, and the
returned list is empty; a subsequent successful fetch repopulates the
entry with the mapped records.  (fetchAndCacheFile is the single fetch
path shared by scanFile and refreshAllCached.) -/
theorem c2_fetch_failure_drops_entry (st : IndexState) (pid filePath key : String)
    (t t' : ℤ) (recs : List DebtRecord) :
    mapGet (fetchAndCacheFile st pid filePath (some key) t (.error ())).1.cache key = none ∧
    (fetchAndCacheFile st pid filePath (some key) t (.error ())).1.events = st.events + 1 ∧
    (fetchAndCacheFile st pid filePath (some key) t (.error ())).2 = [] ∧
    mapGet (fetchAndCacheFile
        (fetchAndCacheFile st pid filePath (some key) t (.error ())).1
        pid filePath (some key) t' (.ok recs)).1.cache key
      = some ⟨recs.map (mapDebt st.folders filePath), t', filePath⟩ ∧
    (fetchAndCacheFile
        (fetchAndCacheFile st pid filePath (some key) t (.error ())).1
        pid filePath (some key) t' (.ok recs)).2
      = recs.map (mapDebt st.folders filePath) := by
  refine ⟨?_, rfl, rfl, ?_, rfl⟩
  · exact mapGet_mapDelete_self st.cache key
  · exact mapGet_mapSet_self _ key _

lemma jsCoalesce_of_present (a b : JsVal) (h : a.present = true) : jsCoalesce a b = a := by
  simp [jsCoalesce, h]

lemma jsCoalesce_of_absent (a b : JsVal) (h : a.present = false) : jsCoalesce a b = b := by
  simp [jsCoalesce, h]

/-- C6 (amended): the line number of a mapped backend record is chosen
by the fallback chain metadata location line FIRST, then metadata line,
then the record's explicit line field, and default 1 when none is
present (each choice going through Number and Math.max(1, ·)). -/
theorem c6_line_fallback_amended (rec : DebtRecord) :
    ((metaLocLine rec.metadata).present = true →
      jsLine rec = jsMaxN (.val 1) (toNumber (metaLocLine rec.metadata))) ∧
    ((metaLocLine rec.metadata).present = false →
      (mdGet rec.metadata (·.line)).present = true →
      jsLine rec = jsMaxN (.val 1) (toNumber (mdGet rec.metadata (·.line)))) ∧
    ((metaLocLine rec.metadata).present = false →
      (mdGet rec.metadata (·.line)).present = false →
      rec.line.present = true →
      jsLine rec = jsMaxN (.val 1) (toNumber rec.line)) ∧
    ((metaLocLine rec.metadata).present = false →
      (mdGet rec.metadata (·.line)).present = false →
      rec.line.present = false →
      jsLine rec = .val 1) := by
  refine ⟨?_, ?_, ?_, ?_⟩
  · intro h1
    unfold jsLine
    rw [jsCoalesce_of_present _ _ h1, jsCoalesce_of_present _ _ h1,
      jsCoalesce_of_present _ _ h1]
  · intro h1 h2
    unfold jsLine
    rw [jsCoalesce_of_absent _ _ h1, jsCoalesce_of_present _ _ h2,
      jsCoalesce_of_present _ _ h2]
  · intro h1 h2 h3
    unfold jsLine
    rw [jsCoalesce_of_absent _ _ h1, jsCoalesce_of_absent _ _ h2,
      jsCoalesce_of_present _ _ h3]
  · intro h1 h2 h3
    unfold jsLine
    rw [jsCoalesce_of_absent _ _ h1, jsCoalesce_of_absent _ _ h2,
      jsCoalesce_of_absent _ _ h3]
    simp [toNumber, jsMaxN]

/-- A record carrying both an explicit line field (5) and a metadata
location line (7): the code prefers the metadata location line. -/
def c6CexRec : DebtRecord :=
  { line := .num 5, metadata := some { location := some { line := .num 7 } } }

/-- C6 counterexample: with explicit line 5 and metadata location line 7,
the mapped line is 7, not the 5 the claimed precedence (explicit line
first) would give. -/
theorem c6_counterexample : jsLine c6CexRec = .val 7 ∧ ¬ jsLine c6CexRec = .val 5 := by
  decide

/-- C6 witness: on a record with no line information at all, the chain
defaults to 1. -/
theorem c6_witness : jsLine ({} : DebtRecord) = .val 1 :=
  (c6_line_fallback_amended {}).2.2.2 rfl rfl rfl

/-- C7 (amended): every mapped debt's line is ≥ 1 whenever the chosen
line value coerces to an actual number — in particular for absent, zero
and negative numeric line fields.  (A non-numeric string line is NOT
clamped: `Number` gives NaN and `Math.max(1, NaN)` is NaN, see the
counterexample.) -/
theorem c7_line_clamped_amended (rec : DebtRecord) (q : ℤ) (h : jsLine rec = .val q) :
    1 ≤ q := by
  have key : ∀ x : JSNum, jsMaxN (.val 1) x = .val q → 1 ≤ q := by
    intro x hx
    cases x with
    | nan => simp [jsMaxN] at hx
    | val b =>
      simp [jsMaxN] at hx
      omega
  exact key _ h

/-- A record whose explicit line field is the non-numeric string "abc". -/
def c7CexRec : DebtRecord := { line := .str "abc" }

/-- C7 counterexample: a non-numeric string line yields NaN, which fails
the JS test `line >= 1`; the claimed clamping to ≥ 1 does not happen. -/
theorem c7_counterexample :
    jsLine c7CexRec = .nan ∧ jsGeZ (jsLine c7CexRec) 1 = false := by
  decide

/-- A record whose explicit line field is the number -3. -/
def c7WitRec : DebtRecord := { line := .num (-3) }

/-- C7 witness: a negative numeric line is clamped to 1, which is ≥ 1. -/
theorem c7_witness : jsLine c7WitRec = .val 1 ∧ (1 : ℤ) ≤ 1 :=
  ⟨by decide, c7_line_clamped_amended c7WitRec 1 (by decide)⟩

lemma epRun_append (st : EPState) (a b : List EPEvent) :
    epRun st (a ++ b) = epRun (epRun st a) b := by
  simp [epRun, List.foldl_append]

lemma epRun_calls (n : ℕ) (p : String) (h : 1 ≤ n) :
    epRun epInit ((List.range n).map (fun cid => EPEvent.call cid (.createOk p))) =
      { projectId := none, slot := .pending, waiters := (List.range n).reverse,
        attemptsStarted := 1, creates := 0, delivered := [] } := by
  induction n with
  | zero => omega
  | succ m ih =>
    rcases Nat.eq_zero_or_pos m with h0 | hm
    · subst h0
      rfl
    · rw [List.range_succ, List.map_append, epRun_append, ih hm]
      simp [epRun, epStep, List.reverse_append]

/-- The canonical C4 scenario: N ensureProject calls arrive while the
first (and only) resolution attempt is still in flight; then the attempt
settles by creating the project p. -/
def ensureBurst (N : ℕ) (p : String) : EPState :=
  epRun epInit
    ((List.range N).map (fun cid => EPEvent.call cid (.createOk p))
      ++ [EPEvent.settle (.createOk p)])

/-- C4: If ensureProject is called N ≥ 1 times concurrently for a
never-before-seen workspace root (all calls arriving while the first
resolution is in flight), only one resolution attempt is ever started,
exactly one createProject gateway call is made, and every one of the N
callers receives the same result p. -/
theorem c4_concurrent_ensure (N : ℕ) (p : String) (hN : 1 ≤ N) :
    (ensureBurst N p).attemptsStarted = 1 ∧
    (ensureBurst N p).creates = 1 ∧
    (ensureBurst N p).projectId = some p ∧
    (ensureBurst N p).delivered.length = N ∧
    (∀ r ∈ (ensureBurst N p).delivered, r.2 = some p) ∧
    (∀ cid, cid < N → (cid, some p) ∈ (ensureBurst N p).delivered) := by
  have hB : ensureBurst N p
      = epStep (epRun epInit ((List.range N).map (fun cid => EPEvent.call cid (.createOk p))))
          (EPEvent.settle (.createOk p)) := by
    simp [ensureBurst, epRun_append, epRun]
  rw [hB, epRun_calls N p hN]
  refine ⟨rfl, rfl, rfl, ?_, ?_, ?_⟩
  · simp [epStep]
  · intro r hr
    simp [epStep, List.mem_map] at hr
    rcases hr with ⟨c, _, rfl⟩
    rfl
  · intro cid hc
    simp [epStep, List.mem_map, List.mem_reverse, List.mem_range]
    exact ⟨cid, hc, rfl, rfl⟩

/-- C4 witness: three concurrent callers, one create, caller 0 gets p1. -/
theorem c4_witness :
    (ensureBurst 3 "p1").creates = 1 ∧ (0, some "p1") ∈ (ensureBurst 3 "p1").delivered :=
  ⟨(c4_concurrent_ensure 3 "p1" (by decide)).2.1,
   (c4_concurrent_ensure 3 "p1" (by decide)).2.2.2.2.2 0 (by decide)⟩

/-- C10 counterexample: a first ensureProject call with no workspace
folder settles synchronously, so a second call - even one that could now
resolve via the gateway - is answered from the memoized settled null
promise and no fresh resolution attempt is started, refuting the claim
for the no-workspace case it names. -/
theorem c10_counterexample :
    (epRun epInit [.call 0 .noFolder, .call 1 .lookupError]).attemptsStarted = 1 ∧
    (epRun epInit [.call 0 .noFolder, .call 1 .lookupError]).projectId = none ∧
    (epRun epInit [.call 0 .noFolder, .call 1 .lookupError]).slot
      = .settled none ∧
    (1, (none : Option String))
      ∈ (epRun epInit [.call 0 .noFolder, .call 1 .lookupError]).delivered := by
  decide

/-- C10 (amended): a resolution attempt that returns null after reaching
its first gateway await (a lookup or create error) is not memoized: its
`finally` clears the stored in-flight promise and the project-id memo
stays unset, the caller is delivered null, a later ensureProject call
starts a fresh attempt, and only a successful resolution memoizes the
id (after which further calls are served from the memo with no new
attempt).  A no-workspace attempt, however, completes synchronously
before the promise is stored, so the settled null promise stays
memoized: every later call is answered null from it and no fresh
attempt is ever started. -/
theorem c10_failed_resolution_not_memoized (att : Attempt)
    (h : att = .lookupError ∨ att = .createError) :
    (epRun epInit [.call 0 att, .settle att]).projectId = none ∧
    (epRun epInit [.call 0 att, .settle att]).slot = .empty ∧
    (0, (none : Option String)) ∈ (epRun epInit [.call 0 att, .settle att]).delivered ∧
    (∀ p' : String,
      (epRun epInit [.call 0 att, .settle att, .call 1 att,
        .settle (.found p')]).attemptsStarted = 2 ∧
      (epRun epInit [.call 0 att, .settle att, .call 1 att,
        .settle (.found p')]).projectId = some p' ∧
      (1, some p') ∈ (epRun epInit [.call 0 att, .settle att, .call 1 att,
        .settle (.found p')]).delivered ∧
      (epRun epInit [.call 0 att, .settle att, .call 1 att, .settle (.found p'),
        .call 2 att]).attemptsStarted = 2 ∧
      (2, some p') ∈ (epRun epInit [.call 0 att, .settle att, .call 1 att,
        .settle (.found p'), .call 2 att]).delivered) ∧
    (∀ cid cid2 : ℕ, ∀ att2 : Attempt,
      (epRun epInit [.call cid .noFolder, .call cid2 att2]).attemptsStarted = 1 ∧
      (epRun epInit [.call cid .noFolder, .call cid2 att2]).projectId = none ∧
      (cid2, (none : Option String))
        ∈ (epRun epInit [.call cid .noFolder, .call cid2 att2]).delivered) := by
  have hE : ∀ cid cid2 : ℕ, ∀ att2 : Attempt,
      (epRun epInit [.call cid .noFolder, .call cid2 att2]).attemptsStarted = 1 ∧
      (epRun epInit [.call cid .noFolder, .call cid2 att2]).projectId = none ∧
      (cid2, (none : Option String))
        ∈ (epRun epInit [.call cid .noFolder, .call cid2 att2]).delivered := by
    intro cid cid2 att2
    refine ⟨?_, ?_, ?_⟩ <;> simp [epRun, epStep, epInit]
  rcases h with rfl | rfl
  · refine ⟨by decide, by decide, by decide, ?_, hE⟩
    intro p'
    refine ⟨?_, ?_, ?_, ?_, ?_⟩ <;>
      simp [epRun, epStep, epInit, Attempt.result, Attempt.creates]
  · refine ⟨by decide, by decide, by decide, ?_, hE⟩
    intro p'
    refine ⟨?_, ?_, ?_, ?_, ?_⟩ <;>
      simp [epRun, epStep, epInit, Attempt.result, Attempt.creates]

/-- C10 witness: a lookup error is not memoized; the next call starts a
second attempt that resolves p2. -/
theorem c10_witness :
    (epRun epInit [.call 0 .lookupError, .settle .lookupError]).projectId = none ∧
    (epRun epInit [.call 0 .lookupError, .settle .lookupError, .call 1 .lookupError,
        .settle (.found "p2")]).attemptsStarted = 2 :=
  ⟨(c10_failed_resolution_not_memoized .lookupError (Or.inl rfl)).1,
   ((c10_failed_resolution_not_memoized .lookupError (Or.inl rfl)).2.2.2.1 "p2").1⟩

lemma ensureProjectRun_resolved (st : IndexState) (att : Attempt) (pid : String)
    (hpid : st.projectId = some pid) : ensureProjectRun st att = (st, some pid) := by
  unfold ensureProjectRun
  rw [hpid]

lemma fetchAndCacheFile_fetchCount (st : IndexState) (pid fp : String)
    (k : Option String) (now : ℤ) (gw : Except Unit (List DebtRecord)) :
    (fetchAndCacheFile st pid fp k now gw).1.fetchCount = st.fetchCount + 1 := by
  cases gw <;> simp [fetchAndCacheFile]

lemma scanFile_resolved (st : IndexState) (doc : Document) (forceRefresh : Bool)
    (att : Attempt) (now : ℤ) (gw : Except Unit (List DebtRecord)) (pid : String)
    (hpid : st.projectId = some pid) (hs : doc.scheme = "file")
    (hv : isVirtualDocument doc = false) :
    scanFile st doc forceRefresh att now gw =
      match mapGet st.cache (normalizePath doc.fsPath) with
      | some cached =>
        if ¬forceRefresh ∧ now - cached.fetchedAt < st.ttlMs then (st, cached.debts)
        else fetchAndCacheFile st pid doc.fsPath (some (normalizePath doc.fsPath)) now gw
      | none => fetchAndCacheFile st pid doc.fsPath (some (normalizePath doc.fsPath)) now gw := by
  unfold scanFile
  rw [ensureProjectRun_resolved st att pid hpid]
  simp [hs, hv]

lemma scanFile_cached_fresh (st : IndexState) (doc : Document) (att : Attempt)
    (now : ℤ) (gw : Except Unit (List DebtRecord)) (pid : String) (cached : CacheEntry)
    (hpid : st.projectId = some pid) (hs : doc.scheme = "file")
    (hv : isVirtualDocument doc = false)
    (hget : mapGet st.cache (normalizePath doc.fsPath) = some cached)
    (hfresh : now - cached.fetchedAt < st.ttlMs) :
    scanFile st doc false att now gw = (st, cached.debts) := by
  rw [scanFile_resolved st doc false att now gw pid hpid hs hv, hget]
  simp [hfresh]

lemma scanFile_cached_stale (st : IndexState) (doc : Document) (att : Attempt)
    (now : ℤ) (gw : Except Unit (List DebtRecord)) (pid : String) (cached : CacheEntry)
    (hpid : st.projectId = some pid) (hs : doc.scheme = "file")
    (hv : isVirtualDocument doc = false)
    (hget : mapGet st.cache (normalizePath doc.fsPath) = some cached)
    (hstale : ¬ (now - cached.fetchedAt < st.ttlMs)) :
    scanFile st doc false att now gw
      = fetchAndCacheFile st pid doc.fsPath (some (normalizePath doc.fsPath)) now gw := by
  rw [scanFile_resolved st doc false att now gw pid hpid hs hv, hget]
  simp [hstale]

/-- C1: For a file document whose project has resolved and whose cache
has no entry yet, the first scanFile(F, false) performs one (successful)
gateway fetch; a second call within the TTL window performs no fetch and
returns the identical cached result (the whole call result, state and
list, is unchanged); a third call after the TTL has elapsed performs a
second gateway fetch. -/
theorem c1_ttl_single_fetch (st : IndexState) (doc : Document)
    (att att2 att3 : Attempt) (pid : String) (t1 t2 t3 : ℤ)
    (recs : List DebtRecord) (gw2 gw3 : Except Unit (List DebtRecord))
    (hpid : st.projectId = some pid)
    (hs : doc.scheme = "file")
    (hv : isVirtualDocument doc = false)
    (hmiss : mapGet st.cache (normalizePath doc.fsPath) = none)
    (h21 : t2 - t1 < st.ttlMs)
    (h31 : st.ttlMs ≤ t3 - t1) :
    (scanFile st doc false att t1 (.ok recs)).1.fetchCount = st.fetchCount + 1 ∧
    scanFile (scanFile st doc false att t1 (.ok recs)).1 doc false att2 t2 gw2
      = scanFile st doc false att t1 (.ok recs) ∧
    (scanFile (scanFile st doc false att t1 (.ok recs)).1 doc false att3 t3 gw3).1.fetchCount
      = st.fetchCount + 2 := by
  have e1 : scanFile st doc false att t1 (.ok recs) =
      ({ st with
          cache := mapSet st.cache (normalizePath doc.fsPath)
            ⟨recs.map (mapDebt st.folders doc.fsPath), t1, doc.fsPath⟩
          events := st.events + 1
          fetchCount := st.fetchCount + 1 },
        recs.map (mapDebt st.folders doc.fsPath)) := by
    rw [scanFile_resolved st doc false att t1 (.ok recs) pid hpid hs hv, hmiss]
    simp [fetchAndCacheFile]
  have e2 := scanFile_cached_fresh
    ({ st with
        cache := mapSet st.cache (normalizePath doc.fsPath)
          ⟨recs.map (mapDebt st.folders doc.fsPath), t1, doc.fsPath⟩
        events := st.events + 1
        fetchCount := st.fetchCount + 1 } : IndexState)
    doc att2 t2 gw2 pid ⟨recs.map (mapDebt st.folders doc.fsPath), t1, doc.fsPath⟩
    hpid hs hv (mapGet_mapSet_self _ _ _) h21
  have e3 := scanFile_cached_stale
    ({ st with
        cache := mapSet st.cache (normalizePath doc.fsPath)
          ⟨recs.map (mapDebt st.folders doc.fsPath), t1, doc.fsPath⟩
        events := st.events + 1
        fetchCount := st.fetchCount + 1 } : IndexState)
    doc att3 t3 gw3 pid ⟨recs.map (mapDebt st.folders doc.fsPath), t1, doc.fsPath⟩
    hpid hs hv (mapGet_mapSet_self _ _ _) (not_lt.mpr h31)
  refine ⟨by rw [e1], ?_, ?_⟩
  · rw [e1]
    exact e2
  · rw [e1, e3, fetchAndCacheFile_fetchCount]

/-- Concrete index state for the C1 witness: project resolved, empty
cache, default 120 s TTL. -/
def c1St : IndexState := { projectId := some "p1" }

/-- Concrete on-disk document for the C1 witness. -/
def c1Doc : Document :=
  { scheme := "file", fsPath := "/repo/a.ts", uriString := "file:///repo/a.ts", lineCount := 10 }

/-- C1 witness: scans at t=0, t=1000 (within the 120000 ms TTL) and
t=120000 (TTL elapsed). -/
theorem c1_witness :
    (scanFile c1St c1Doc false .noFolder 0 (.ok [])).1.fetchCount = c1St.fetchCount + 1 ∧
    scanFile (scanFile c1St c1Doc false .noFolder 0 (.ok [])).1 c1Doc false .noFolder 1000 (.ok [])
      = scanFile c1St c1Doc false .noFolder 0 (.ok []) ∧
    (scanFile (scanFile c1St c1Doc false .noFolder 0 (.ok [])).1 c1Doc false .noFolder 120000
        (.ok [])).1.fetchCount
      = c1St.fetchCount + 2 :=
  c1_ttl_single_fetch c1St c1Doc .noFolder .noFolder .noFolder "p1" 0 1000 120000 []
    (.ok []) (.ok []) rfl rfl (by decide) rfl (by decide) (by decide)

lemma pushGroup_low (g : DecorationGroups) (l : JSNum) :
    pushGroup g "low" l = { g with low := g.low ++ [l] } := rfl

lemma pushGroup_medium (g : DecorationGroups) (l : JSNum) :
    pushGroup g "medium" l = { g with medium := g.medium ++ [l] } := rfl

lemma pushGroup_high (g : DecorationGroups) (l : JSNum) :
    pushGroup g "high" l = { g with high := g.high ++ [l] } := rfl

lemma pushGroup_critical (g : DecorationGroups) (l : JSNum) :
    pushGroup g "critical" l = { g with critical := g.critical ++ [l] } := rfl

lemma mem_groupLines_pushSev (g : DecorationGroups) (sev : DebtSeverity) (l x : JSNum) :
    x ∈ groupLines (pushGroup g (severityKey sev) l) ↔ x ∈ groupLines g ∨ x = l := by
  cases sev with
  | low =>
    rw [show severityKey .low = "low" from rfl, pushGroup_low]
    simp [groupLines]
    tauto
  | medium =>
    rw [show severityKey .medium = "medium" from rfl, pushGroup_medium]
    simp [groupLines]
    tauto
  | high =>
    rw [show severityKey .high = "high" from rfl, pushGroup_high]
    simp [groupLines]
    tauto
  | critical =>
    rw [show severityKey .critical = "critical" from rfl, pushGroup_critical]
    simp [groupLines]
    tauto

lemma mem_groupLines_fold (lc : ℤ) (debts : List FileDebt) :
    ∀ (g : DecorationGroups) (x : JSNum),
      x ∈ groupLines (debts.foldl (applyStep lc) g) ↔
        x ∈ groupLines g ∨ ∃ d ∈ debts,
          jsGeZ (jsMaxN (.val 0) (jsSub d.line (.val 1))) lc = false ∧
          x = jsMaxN (.val 0) (jsSub d.line (.val 1)) := by
  induction debts with
  | nil =>
    intro g x
    simp
  | cons d rest ih =>
    intro g x
    rw [List.foldl_cons, ih]
    by_cases hg : jsGeZ (jsMaxN (.val 0) (jsSub d.line (.val 1))) lc = true
    · rw [show applyStep lc g d = g from by unfold applyStep; simp [hg]]
      simp only [List.mem_cons]
      constructor
      · rintro (h | ⟨d', hd', hc, hx⟩)
        · exact Or.inl h
        · exact Or.inr ⟨d', Or.inr hd', hc, hx⟩
      · rintro (h | ⟨d', hd' | hd', hc, hx⟩)
        · exact Or.inl h
        · subst hd'
          rw [hg] at hc
          cases hc
        · exact Or.inr ⟨d', hd', hc, hx⟩
    · have hg' : jsGeZ (jsMaxN (.val 0) (jsSub d.line (.val 1))) lc = false := by
        cases h : jsGeZ (jsMaxN (.val 0) (jsSub d.line (.val 1))) lc
        · rfl
        · exact absurd h hg
      rw [show applyStep lc g d = pushGroup g (severityKey d.severity)
            (jsMaxN (.val 0) (jsSub d.line (.val 1))) from by unfold applyStep; simp [hg']]
      rw [mem_groupLines_pushSev]
      simp only [List.mem_cons]
      constructor
      · rintro ((h | h) | ⟨d', hd', hc, hx⟩)
        · exact Or.inl h
        · exact Or.inr ⟨d, Or.inl rfl, hg', h⟩
        · exact Or.inr ⟨d', Or.inr hd', hc, hx⟩
      · rintro (h | ⟨d', hd' | hd', hc, hx⟩)
        · exact Or.inl (Or.inl h)
        · subst hd'
          exact Or.inl (Or.inr hx)
        · exact Or.inr ⟨d', hd', hc, hx⟩

lemma mem_rowLens_fold (lc : ℤ) (debts : List FileDebt) :
    ∀ (acc : List CodeLensItem) (it : CodeLensItem),
      it ∈ debts.foldl (rowLensStep lc) acc ↔
        it ∈ acc ∨ ∃ d ∈ debts,
          jsGeZ (jsMaxN (.val 0) (jsSub d.line (.val 1))) lc = false ∧
          (it = ⟨jsMaxN (.val 0) (jsSub d.line (.val 1)), "technicalDebt.markDebt.inProgress"⟩ ∨
           it = ⟨jsMaxN (.val 0) (jsSub d.line (.val 1)), "technicalDebt.markDebt.resolved"⟩ ∨
           it = ⟨jsMaxN (.val 0) (jsSub d.line (.val 1)), "technicalDebt.markDebt.ignored"⟩) := by
  induction debts with
  | nil =>
    intro acc it
    simp
  | cons d rest ih =>
    intro acc it
    rw [List.foldl_cons, ih]
    by_cases hg : jsGeZ (jsMaxN (.val 0) (jsSub d.line (.val 1))) lc = true
    · rw [show rowLensStep lc acc d = acc from by unfold rowLensStep; simp [hg]]
      simp only [List.mem_cons]
      constructor
      · rintro (h | ⟨d', hd', hc, hx⟩)
        · exact Or.inl h
        · exact Or.inr ⟨d', Or.inr hd', hc, hx⟩
      · rintro (h | ⟨d', hd' | hd', hc, hx⟩)
        · exact Or.inl h
        · subst hd'
          rw [hg] at hc
          cases hc
        · exact Or.inr ⟨d', hd', hc, hx⟩
    · have hg' : jsGeZ (jsMaxN (.val 0) (jsSub d.line (.val 1))) lc = false := by
        cases h : jsGeZ (jsMaxN (.val 0) (jsSub d.line (.val 1))) lc
        · rfl
        · exact absurd h hg
      rw [show rowLensStep lc acc d = acc ++
            [⟨jsMaxN (.val 0) (jsSub d.line (.val 1)), "technicalDebt.markDebt.inProgress"⟩,
             ⟨jsMaxN (.val 0) (jsSub d.line (.val 1)), "technicalDebt.markDebt.resolved"⟩,
             ⟨jsMaxN (.val 0) (jsSub d.line (.val 1)), "technicalDebt.markDebt.ignored"⟩]
          from by unfold rowLensStep; simp [hg']]
      simp only [List.mem_append, List.mem_cons, List.mem_singleton, List.not_mem_nil, or_false]
      constructor
      · rintro ((h | h) | ⟨d', hd', hc, hx⟩)
        · exact Or.inl h
        · exact Or.inr ⟨d, Or.inl rfl, hg', h⟩
        · exact Or.inr ⟨d', Or.inr hd', hc, hx⟩
      · rintro (h | ⟨d', hd' | hd', hc, hx⟩)
        · exact Or.inl (Or.inl h)
        · subst hd'
          exact Or.inl (Or.inr hx)
        · exact Or.inr ⟨d', hd', hc, hx⟩

lemma guardLine_of_val (q lc : ℤ) (hq : 1 ≤ q) :
    jsMaxN (.val 0) (jsSub (.val q) (.val 1)) = .val (q - 1) ∧
    (jsGeZ (jsMaxN (.val 0) (jsSub (.val q) (.val 1))) lc = false ↔ q ≤ lc) := by
  constructor
  · simp [jsSub, jsMaxN]
    omega
  · simp [jsSub, jsMaxN, jsGeZ]
    omega

/-- C8 (amended): the inline decorator and the per-debt CodeLens row
lenses skip exactly the debts whose (1-based, clamped) line is STRICTLY
greater than the document's line count; a debt whose line equals the
line count sits on the last line and is still rendered.  Formally, for
numeric lines q ≥ 1, a decoration/lens is produced at 0-based line q-1
iff q ≤ lineCount. -/
theorem c8_render_guard_amended (lc : ℤ) (debts : List FileDebt)
    (st : IndexState) (doc : Document)
    (h1 : ∀ d ∈ debts, ∃ q : ℤ, d.line = .val q ∧ 1 ≤ q)
    (h2 : ∀ d ∈ getCachedFileDebts st doc, ∃ q : ℤ, d.line = .val q ∧ 1 ≤ q) :
    (∀ x : JSNum,
      x ∈ groupLines (applyDecorations lc debts) ↔
        ∃ d ∈ debts, ∃ q : ℤ, d.line = .val q ∧ x = .val (q - 1) ∧ q ≤ lc) ∧
    (∀ x : JSNum,
      (⟨x, "technicalDebt.markDebt.resolved"⟩ : CodeLensItem) ∈ provideCodeLenses st doc ↔
        ∃ d ∈ getCachedFileDebts st doc, ∃ q : ℤ,
          d.line = .val q ∧ x = .val (q - 1) ∧ q ≤ doc.lineCount) := by
  constructor
  · intro x
    unfold applyDecorations
    rw [mem_groupLines_fold]
    simp only [show groupLines {} = ([] : List JSNum) from rfl, List.not_mem_nil, false_or]
    constructor
    · rintro ⟨d, hd, hc, rfl⟩
      obtain ⟨q, hq, hq1⟩ := h1 d hd
      obtain ⟨hline, hguard⟩ := guardLine_of_val q lc hq1
      rw [hq] at hc ⊢
      exact ⟨d, hd, q, hq, hline.symm ▸ rfl, hguard.mp hc⟩
    · rintro ⟨d, hd, q, hq, rfl, hle⟩
      obtain ⟨q', hq', hq1'⟩ := h1 d hd
      have hqq : q' = q := by
        rw [hq] at hq'
        injection hq' with h'
        exact h'.symm
      subst hqq
      obtain ⟨hline, hguard⟩ := guardLine_of_val q' lc hq1'
      refine ⟨d, hd, ?_, ?_⟩
      · rw [hq]
        exact hguard.mpr hle
      · rw [hq, hline]
  · intro x
    unfold provideCodeLenses
    simp only [List.mem_append]
    rw [mem_rowLens_fold]
    have hhead : ((⟨x, "technicalDebt.markDebt.resolved"⟩ : CodeLensItem)
        ∈ (if 0 < (getCachedFileDebts st doc).length
            then [(⟨.val 0, "technicalDebt.showFileDebts"⟩ : CodeLensItem)]
            else [(⟨.val 0, "technicalDebt.scanFile"⟩ : CodeLensItem)])) ↔ False := by
      by_cases h : 0 < (getCachedFileDebts st doc).length <;> simp [h]
    rw [hhead]
    simp only [List.not_mem_nil, false_or]
    constructor
    · rintro ⟨d, hd, hc, heq⟩
      obtain ⟨q, hq, hq1⟩ := h2 d hd
      obtain ⟨hline, hguard⟩ := guardLine_of_val q doc.lineCount hq1
      rw [hq] at hc heq
      rw [hline] at heq
      rcases heq with h' | h' | h' <;>
        first
        | (injection h' with hl hcmd; exact absurd hcmd (by decide))
        | (injection h' with hl hcmd
           exact ⟨d, hd, q, hq, hl, hguard.mp hc⟩)
    · rintro ⟨d, hd, q, hq, rfl, hle⟩
      obtain ⟨q', hq', hq1'⟩ := h2 d hd
      have hqq : q' = q := by
        rw [hq] at hq'
        injection hq' with h'
        exact h'.symm
      subst hqq
      obtain ⟨hline, hguard⟩ := guardLine_of_val q' doc.lineCount hq1'
      refine ⟨d, hd, ?_, ?_⟩
      · rw [hq]
        exact hguard.mpr hle
      · rw [hq, hline]
        exact Or.inr (Or.inl rfl)

/-- A debt on 1-based line 1 of a one-line document: its line equals the
document's line count. -/
def c8CexDebt : FileDebt := { line := .val 1, severity := .high }

/-- A one-line on-disk document. -/
def c8Doc : Document :=
  { scheme := "file", fsPath := "/a.ts", uriString := "file:///a.ts", lineCount := 1 }

/-- Cache state holding c8CexDebt for /a.ts. -/
def c8St : IndexState := { cache := [("/a.ts", ⟨[c8CexDebt], 0, "/a.ts"⟩)] }

/-- C8 counterexample: this debt's 1-based line lies AT the document's
line count (jsGeZ test true), yet both renderers still render it (on the
last line, 0-based 0) instead of skipping it as the claim states. -/
theorem c8_counterexample :
    jsGeZ c8CexDebt.line c8Doc.lineCount = true ∧
    groupLines (applyDecorations c8Doc.lineCount [c8CexDebt]) = [JSNum.val 0] ∧
    (⟨.val 0, "technicalDebt.markDebt.resolved"⟩ : CodeLensItem)
      ∈ provideCodeLenses c8St c8Doc := by
  refine ⟨by decide, by decide, by decide⟩

/-- A debt on 1-based line 2 of a five-line document. -/
def c8WitDebt : FileDebt := { line := .val 2, severity := .low }

/-- A five-line on-disk document. -/
def c8WitDoc : Document :=
  { scheme := "file", fsPath := "/b.ts", uriString := "file:///b.ts", lineCount := 5 }

/-- Cache state holding c8WitDebt for /b.ts. -/
def c8WitSt : IndexState := { cache := [("/b.ts", ⟨[c8WitDebt], 0, "/b.ts"⟩)] }

/-- C8 witness: a debt with line 2 ≤ lineCount 5 is rendered by both the
decorator and the lens provider at 0-based line 1. -/
theorem c8_witness :
    JSNum.val 1 ∈ groupLines (applyDecorations 5 [c8WitDebt]) ∧
    (⟨.val 1, "technicalDebt.markDebt.resolved"⟩ : CodeLensItem)
      ∈ provideCodeLenses c8WitSt c8WitDoc := by
  have hcache : getCachedFileDebts c8WitSt c8WitDoc = [c8WitDebt] := rfl
  have h1 : ∀ d ∈ [c8WitDebt], ∃ q : ℤ, d.line = .val q ∧ 1 ≤ q := by
    intro d hd
    rw [List.mem_singleton] at hd
    subst hd
    exact ⟨2, rfl, by decide⟩
  have h2 : ∀ d ∈ getCachedFileDebts c8WitSt c8WitDoc, ∃ q : ℤ, d.line = .val q ∧ 1 ≤ q := by
    rw [hcache]
    exact h1
  have h := c8_render_guard_amended 5 [c8WitDebt] c8WitSt c8WitDoc h1 h2
  constructor
  · exact (h.1 (.val 1)).mpr ⟨c8WitDebt, List.mem_singleton_self _, 2, rfl, rfl, by decide⟩
  · refine (h.2 (.val 1)).mpr ⟨c8WitDebt, ?_, 2, rfl, rfl, by decide⟩
    rw [hcache]
    exact List.mem_singleton_self _

/-- The ordering the spec asserts for aggregateWorkspaceDebts, stated in
the spec's own terms: by filePath ascending, then by line ascending
(on numeric lines). -/
def lineLE : JSNum → JSNum → Prop := fun x y =>
  match x, y with
  | .val p, .val q => p ≤ q
  | _, _ => True

/-- Modelled from the spec: "sorted by (filePath, line) ascending". -/
def specLE (a b : FileDebt) : Prop :=
  localeCompare a.filePath b.filePath = -1 ∨
    (a.filePath = b.filePath ∧ lineLE a.line b.line)

lemma listCmp_cases (a b : List Char) :
    listCmp a b = -1 ∨ listCmp a b = 0 ∨ listCmp a b = 1 := by
  induction a generalizing b with
  | nil => cases b <;> simp [listCmp]
  | cons x xs ih =>
    cases b with
    | nil => simp [listCmp]
    | cons y ys =>
      by_cases hxy : x = y
      · simpa [listCmp, hxy] using ih ys
      · by_cases hlt : x < y <;> simp [listCmp, hxy, hlt]

lemma listCmp_eq_zero_iff (a b : List Char) : listCmp a b = 0 ↔ a = b := by
  induction a generalizing b with
  | nil => cases b <;> simp [listCmp]
  | cons x xs ih =>
    cases b with
    | nil => simp [listCmp]
    | cons y ys =>
      by_cases hxy : x = y
      · subst hxy
        simp [listCmp, ih]
      · by_cases hlt : x < y <;> simp [listCmp, hxy, hlt]

lemma listCmp_swap (a b : List Char) : listCmp b a = - listCmp a b := by
  induction a generalizing b with
  | nil => cases b <;> simp [listCmp]
  | cons x xs ih =>
    cases b with
    | nil => simp [listCmp]
    | cons y ys =>
      by_cases hxy : x = y
      · subst hxy
        simp [listCmp, ih]
      · have hyx : y ≠ x := fun h => hxy h.symm
        by_cases hlt : x < y
        · have hnyx : ¬ y < x := asymm hlt
          simp [listCmp, hxy, hyx, hlt, hnyx]
        · have hgt : y < x := lt_of_le_of_ne (not_lt.mp hlt) hyx
          simp [listCmp, hxy, hyx, hlt, hgt]

lemma listCmp_trans_neg (a : List Char) : ∀ (b c : List Char),
    listCmp a b = -1 → listCmp b c = -1 → listCmp a c = -1 := by
  induction a with
  | nil =>
    intro b c hab hbc
    cases b with
    | nil => simp [listCmp] at hab
    | cons y ys =>
      cases c with
      | nil => simp [listCmp] at hbc
      | cons z zs => simp [listCmp]
  | cons x xs ih =>
    intro b c hab hbc
    cases b with
    | nil => simp [listCmp] at hab
    | cons y ys =>
      cases c with
      | nil => simp [listCmp] at hbc
      | cons z zs =>
        by_cases hxy : x = y
        · subst hxy
          simp only [listCmp, if_pos rfl] at hab
          by_cases hxz : x = z
          · subst hxz
            simp only [listCmp, if_pos rfl] at hbc ⊢
            exact ih ys zs hab hbc
          · by_cases hlt : x < z
            · simp [listCmp, hxz, hlt]
            · simp [listCmp, hxz, hlt] at hbc
        · have hlt : x < y := by
            by_cases h : x < y
            · exact h
            · simp [listCmp, hxy, h] at hab
          by_cases hyz : y = z
          · subst hyz
            simp [listCmp, ne_of_lt hlt, hlt]
          · have hlt2 : y < z := by
              by_cases h : y < z
              · exact h
              · simp [listCmp, hyz, h] at hbc
            have hxz : x < z := lt_trans hlt hlt2
            simp [listCmp, ne_of_lt hxz, hxz]

lemma localeCompare_cases (a b : String) :
    localeCompare a b = -1 ∨ localeCompare a b = 0 ∨ localeCompare a b = 1 :=
  listCmp_cases a.data b.data

lemma localeCompare_eq_zero_iff (a b : String) : localeCompare a b = 0 ↔ a = b := by
  unfold localeCompare
  rw [listCmp_eq_zero_iff]
  constructor
  · intro h
    exact String.ext h
  · intro h
    rw [h]

lemma localeCompare_swap (a b : String) : localeCompare b a = - localeCompare a b :=
  listCmp_swap a.data b.data

lemma localeCompare_trans_neg (a b c : String)
    (hab : localeCompare a b = -1) (hbc : localeCompare b c = -1) :
    localeCompare a c = -1 :=
  listCmp_trans_neg a.data b.data c.data hab hbc

lemma line_val_of_ne_nan {n : JSNum} (h : n ≠ .nan) : ∃ q : ℤ, n = .val q := by
  cases n with
  | nan => exact absurd rfl h
  | val q => exact ⟨q, rfl⟩

lemma localeCompare_self (a : String) : localeCompare a a = 0 :=
  (localeCompare_eq_zero_iff a a).mpr rfl

lemma debtLE_iff_val (a b : FileDebt) (x y : ℤ)
    (hx : a.line = .val x) (hy : b.line = .val y) :
    debtLE a b ↔
      (localeCompare a.filePath b.filePath = -1 ∨ (a.filePath = b.filePath ∧ x ≤ y)) := by
  unfold debtLE debtCmp
  rw [hx, hy]
  by_cases h0 : localeCompare a.filePath b.filePath = 0
  · simp [h0, (localeCompare_eq_zero_iff a.filePath b.filePath).mp h0, sub_nonpos,
      localeCompare_self]
  · rw [if_pos h0]
    rcases localeCompare_cases a.filePath b.filePath with h | h | h
    · simp [h]
    · exact absurd h h0
    · have hne : ¬ a.filePath = b.filePath := by
        intro he
        rw [(localeCompare_eq_zero_iff a.filePath b.filePath).mpr he] at h
        exact absurd h (by decide)
      simp [h, hne]

lemma debtLE_total (a b : FileDebt) : debtLE a b ∨ debtLE b a := by
  unfold debtLE debtCmp
  rcases localeCompare_cases a.filePath b.filePath with h | h | h
  · left
    simp [h]
  · have h' : localeCompare b.filePath a.filePath = 0 := by
      rw [localeCompare_swap, h]
      rfl
    rw [if_neg (by simp [h]), if_neg (by simp [h'])]
    cases ha : a.line with
    | nan => cases hb : b.line <;> simp
    | val xa =>
      cases hb : b.line with
      | nan => simp
      | val yb =>
        simp [sub_nonpos]
        exact le_total xa yb
  · right
    have h' : localeCompare b.filePath a.filePath = -1 := by
      rw [localeCompare_swap, h]
    simp [h']

lemma debtLE_trans_val (a b c : FileDebt) (x y z : ℤ)
    (hx : a.line = .val x) (hy : b.line = .val y) (hz : c.line = .val z)
    (hab : debtLE a b) (hbc : debtLE b c) : debtLE a c := by
  rw [debtLE_iff_val a b x y hx hy] at hab
  rw [debtLE_iff_val b c y z hy hz] at hbc
  rw [debtLE_iff_val a c x z hx hz]
  rcases hab with h1 | ⟨h1, hxy⟩
  · rcases hbc with h2 | ⟨h2, hyz⟩
    · exact Or.inl (localeCompare_trans_neg _ _ _ h1 h2)
    · left
      rw [← h2]
      exact h1
  · rcases hbc with h2 | ⟨h2, hyz⟩
    · left
      rw [h1]
      exact h2
    · exact Or.inr ⟨h1.trans h2, le_trans hxy hyz⟩

lemma sorted_orderedInsert_nn (a : FileDebt) (l : List FileDebt)
    (hnn : ∀ x ∈ a :: l, x.line ≠ JSNum.nan) (hs : List.Sorted debtLE l) :
    List.Sorted debtLE (List.orderedInsert debtLE a l) := by
  induction l with
  | nil => simp
  | cons b t ih =>
    rw [List.orderedInsert]
    by_cases hab : debtLE a b
    · rw [if_pos hab, List.sorted_cons]
      refine ⟨?_, hs⟩
      intro y hy
      rcases List.mem_cons.mp hy with rfl | hyt
      · exact hab
      · have hby : debtLE b y := (List.sorted_cons.mp hs).1 y hyt
        obtain ⟨xa, hxa⟩ := line_val_of_ne_nan (hnn a (by simp))
        obtain ⟨xb, hxb⟩ := line_val_of_ne_nan (hnn b (by simp))
        obtain ⟨xy, hxy⟩ := line_val_of_ne_nan (hnn y (by simp [hyt]))
        exact debtLE_trans_val a b y xa xb xy hxa hxb hxy hab hby
    · rw [if_neg hab, List.sorted_cons]
      have hba : debtLE b a := (debtLE_total a b).resolve_left hab
      constructor
      · intro y hy
        rcases (List.mem_orderedInsert debtLE).mp hy with rfl | hyt
        · exact hba
        · exact (List.sorted_cons.mp hs).1 y hyt
      · apply ih
        · intro x hx
          rcases List.mem_cons.mp hx with rfl | hxt
          · exact hnn x (by simp)
          · exact hnn x (by simp [hxt])
        · exact (List.sorted_cons.mp hs).2

lemma sorted_insertionSort_nn (l : List FileDebt)
    (hnn : ∀ x ∈ l, x.line ≠ JSNum.nan) :
    List.Sorted debtLE (List.insertionSort debtLE l) := by
  induction l with
  | nil => simp
  | cons a t ih =>
    rw [List.insertionSort]
    apply sorted_orderedInsert_nn
    · intro x hx
      rcases List.mem_cons.mp hx with rfl | hxt
      · exact hnn x (by simp)
      · have hxm : x ∈ t := ((List.perm_insertionSort debtLE t).mem_iff).mp hxt
        exact hnn x (by simp [hxm])
    · exact ih (fun x hx => hnn x (by simp [hx]))

lemma sorted_specLE_of (l : List FileDebt)
    (hnn : ∀ x ∈ l, x.line ≠ JSNum.nan) (hs : List.Sorted debtLE l) :
    List.Sorted specLE l := by
  refine List.Pairwise.imp_of_mem ?_ hs
  intro a b ha hb hab
  obtain ⟨xa, hxa⟩ := line_val_of_ne_nan (hnn a ha)
  obtain ⟨xb, hxb⟩ := line_val_of_ne_nan (hnn b hb)
  rw [debtLE_iff_val a b xa xb hxa hxb] at hab
  rcases hab with h | ⟨h, hle⟩
  · exact Or.inl h
  · refine Or.inr ⟨h, ?_⟩
    rw [hxa, hxb]
    exact hle

/-- C5 (amended): aggregateWorkspaceDebts returns exactly the union (as
a multiset) of the debt lists of the entries currently in the cache;
every returned debt comes from some cached entry (files never scanned
contribute nothing); the result depends on nothing but the cache (the
definition consults no gateway); and WHEN every cached line is an actual
number (not NaN) the result is sorted by (filePath, line) ascending.
With a NaN line the comparator returns NaN (treated as 0 by
Array.prototype.sort) and the claimed order can be violated - see the
counterexample. -/
theorem c5_aggregate_union_sorted (st : IndexState) :
    List.Perm (aggregateWorkspaceDebts st) ((st.cache.map (fun kv => kv.2.debts)).flatten) ∧
    ((∀ d ∈ (st.cache.map (fun kv => kv.2.debts)).flatten, d.line ≠ JSNum.nan) →
      List.Sorted specLE (aggregateWorkspaceDebts st)) ∧
    (∀ d ∈ aggregateWorkspaceDebts st, ∃ kv ∈ st.cache, d ∈ kv.2.debts) ∧
    (∀ st2 : IndexState, st2.cache = st.cache →
      aggregateWorkspaceDebts st2 = aggregateWorkspaceDebts st) := by
  have hperm := List.perm_insertionSort debtLE ((st.cache.map (fun kv => kv.2.debts)).flatten)
  refine ⟨hperm, ?_, ?_, ?_⟩
  · intro hnn
    refine sorted_specLE_of _ ?_ (sorted_insertionSort_nn _ hnn)
    intro x hx
    exact hnn x (hperm.subset hx)
  · intro d hd
    have hdm : d ∈ (st.cache.map (fun kv => kv.2.debts)).flatten := hperm.subset hd
    rw [List.mem_flatten] at hdm
    obtain ⟨l, hl, hdl⟩ := hdm
    rw [List.mem_map] at hl
    obtain ⟨kv, hkv, rfl⟩ := hl
    exact ⟨kv, hkv, hdl⟩
  · intro st2 h2
    unfold aggregateWorkspaceDebts
    rw [h2]

/-- A cached debt in /r/c.ts at line 5. -/
def c5CexD5 : FileDebt := { id := "x5", filePath := "/r/c.ts", line := .val 5 }

/-- A cached debt in /r/c.ts whose line is NaN (as a non-numeric backend
line field produces, see c7_counterexample). -/
def c5CexDn : FileDebt := { id := "xn", filePath := "/r/c.ts", line := .nan }

/-- A cached debt in /r/c.ts at line 3. -/
def c5CexD3 : FileDebt := { id := "x3", filePath := "/r/c.ts", line := .val 3 }

/-- A cache holding one entry with same-path lines [5, NaN, 3]. -/
def c5CexSt : IndexState :=
  { cache := [("/r/c.ts", ⟨[c5CexD5, c5CexDn, c5CexD3], 0, "/r/c.ts"⟩)] }

/-- C5 counterexample: with a NaN-lined debt cached between lines 5 and
3 of the same file, the sort leaves the list as [5, NaN, 3] (every
comparison against NaN yields 0): line 5 precedes line 3 on the same
path, so the output is NOT sorted by (filePath, line) ascending as the
claim states. -/
theorem c5_counterexample :
    aggregateWorkspaceDebts c5CexSt = [c5CexD5, c5CexDn, c5CexD3] ∧
    c5CexD5.filePath = c5CexD3.filePath ∧
    c5CexD5.line = .val 5 ∧ c5CexD3.line = .val 3 ∧
    ¬ List.Sorted specLE (aggregateWorkspaceDebts c5CexSt) := by
  have hagg : aggregateWorkspaceDebts c5CexSt = [c5CexD5, c5CexDn, c5CexD3] := rfl
  refine ⟨hagg, rfl, rfl, rfl, ?_⟩
  rw [hagg]
  intro h
  have h53 : specLE c5CexD5 c5CexD3 :=
    (List.sorted_cons.mp h).1 c5CexD3 (by simp)
  rcases h53 with hlt | ⟨heq, hle⟩
  · have h0 : localeCompare c5CexD5.filePath c5CexD3.filePath = 0 :=
      (localeCompare_eq_zero_iff _ _).mpr rfl
    rw [h0] at hlt
    exact absurd hlt (by decide)
  · have h53' : (5 : ℤ) ≤ 3 := hle
    omega

/-- A cached debt in /r/a.ts at line 10. -/
def c5Debt1 : FileDebt := { id := "d1", filePath := "/r/a.ts", line := .val 10, severity := .high }

/-- A cached debt in /r/b.ts at line 3. -/
def c5Debt2 : FileDebt := { id := "d2", filePath := "/r/b.ts", line := .val 3 }

/-- A cache with two scanned files (inserted out of path order). -/
def c5St : IndexState :=
  { cache := [("/r/b.ts", ⟨[c5Debt2], 0, "/r/b.ts"⟩), ("/r/a.ts", ⟨[c5Debt1], 0, "/r/a.ts"⟩)] }

/-- C5 witness: on a concrete two-entry cache with numeric lines, the
aggregate is sorted by (filePath, line). -/
theorem c5_witness :
    (∀ d ∈ (c5St.cache.map (fun kv => kv.2.debts)).flatten, d.line ≠ JSNum.nan) ∧
    List.Sorted specLE (aggregateWorkspaceDebts c5St) :=
  ⟨by decide, (c5_aggregate_union_sorted c5St).2.1 (by decide)⟩
